import Mathlib

/-!
Verification development for the safe arithmetic expression evaluator
(`expr_eval.py`).  The Python evaluator parses an expression string with the
host parser, then walks the tree under a whitelist of allowed names
(`allowed_names`), a caller context (`ans`, `variables`) and a numeric mode
(float vs `Decimal`).

Embedding conventions:
* Exact rational values are represented by `Q2`, a normalized
  numerator/denominator pair (kept in lowest terms with positive
  denominator, so equality of values is equality of representations).
* Python `int` is `ℤ`; Python `float` is modelled by the exact rational
  value of its binary64 representation (`RVal.rat`), with rounding to the
  nearest binary64 value performed by `roundFloat`; values a rational
  cannot express (results of the `math` functions, fractional powers) are
  carried symbolically by `RVal.sym1` and `RVal.sym2`.  Subnormal and
  overflowing magnitudes are outside the modelled range (the fuel of
  `normLoop` covers binary exponents of magnitude up to about 100), which
  covers every input used by the claims.
* Python `Decimal` is modelled by its exact rational value; the default
  28-significant-digit context never rounds any operation appearing in the
  claims, so context rounding is not modelled (a division whose exact
  quotient is not a finite decimal is carried symbolically).
* Failures are explicit: `Err.valueErr` is `ValueError` (the evaluator's own
  typed errors), `Err.zeroDivErr` is `ZeroDivisionError` (including
  `decimal.DivisionByZero`, which subclasses it), `Err.typeErr` is a host
  `TypeError` and `Err.invalidOpErr` is `decimal.InvalidOperation` (which
  does not subclass `ZeroDivisionError`; the `DivisionUndefined` condition
  signalled by `0/0` and `0%0` is raised as plain `InvalidOperation`).
  Message texts follow the source with quote characters omitted.
* Evaluation returns a `TR Val`: the result together with a ghost trace of
  the names of the whitelist callables that were actually invoked, used to
  state the security claims ("performs no side effect").
-/

/-! ## Exact rational arithmetic -/

/-- A rational number as a numerator/denominator pair.  All values built by
the operations below are normalized: positive denominator, lowest terms. -/
structure Q2 where
  num : ℤ
  den : ℤ
deriving DecidableEq

/-- Normalize a fraction: make the denominator positive and divide out the
gcd. -/
def Q2.norm (a : Q2) : Q2 :=
  let n := if a.den < 0 then -a.num else a.num
  let d := if a.den < 0 then -a.den else a.den
  let g : ℤ := (Int.gcd n d : ℤ)
  if g = 0 then ⟨0, 1⟩ else ⟨n / g, d / g⟩

/-- Embed an integer. -/
def Q2.ofInt (n : ℤ) : Q2 := ⟨n, 1⟩

/-- Build the rational `a / b` in normal form. -/
def qv (a b : ℤ) : Q2 := Q2.norm ⟨a, b⟩

def Q2.add (a b : Q2) : Q2 := Q2.norm ⟨a.num * b.den + b.num * a.den, a.den * b.den⟩

def Q2.sub (a b : Q2) : Q2 := Q2.norm ⟨a.num * b.den - b.num * a.den, a.den * b.den⟩

def Q2.mul (a b : Q2) : Q2 := Q2.norm ⟨a.num * b.num, a.den * b.den⟩

def Q2.div (a b : Q2) : Q2 := Q2.norm ⟨a.num * b.den, a.den * b.num⟩

def Q2.neg (a : Q2) : Q2 := ⟨-a.num, a.den⟩

def Q2.lt (a b : Q2) : Bool := a.num * b.den < b.num * a.den

def Q2.le (a b : Q2) : Bool := a.num * b.den ≤ b.num * a.den

def Q2.isZero (a : Q2) : Bool := a.num == 0

def Q2.isNeg (a : Q2) : Bool := a.num < 0

/-- Floor of a rational (denominators are positive). -/
def Q2.floor (a : Q2) : ℤ := Int.fdiv a.num a.den

/-- Ceiling of a rational. -/
def Q2.ceil (a : Q2) : ℤ := -Int.fdiv (-a.num) a.den

/-- Whether the rational is an integral value (it is normalized). -/
def Q2.isInt (a : Q2) : Bool := a.den == 1

/-- Natural power by binary exponentiation (the fuel bounds the recursion
depth; `70` covers every exponent below `2^70`). -/
def Q2.powAux : ℕ → Q2 → ℕ → Q2
  | 0, _, _ => ⟨1, 1⟩
  | fuel+1, x, n =>
    if n == 0 then ⟨1, 1⟩
    else
      let h := Q2.powAux fuel x (n / 2)
      let s := Q2.mul h h
      if n % 2 == 0 then s else Q2.mul x s

def Q2.powN (x : Q2) (n : ℕ) : Q2 := Q2.powAux 70 x n

/-- Integer power (callers never take a negative power of zero). -/
def Q2.powInt (x : Q2) (e : ℤ) : Q2 :=
  if 0 ≤ e then Q2.powN x e.toNat
  else Q2.div ⟨1, 1⟩ (Q2.powN x (-e).toNat)

/-- Integer power on `ℤ` by repeated multiplication. -/
def ipowN (a : ℤ) : ℕ → ℤ
  | 0 => 1
  | n+1 => a * ipowN a n

/-! ## Binary64 rounding and Python float-to-string conversion -/

/-- Binary normalization: scale `q` by powers of two until the significand
lies in `[2^52, 2^53)`, returning the scaled value and the exponent. -/
def normLoop : ℕ → Q2 → ℤ → Q2 × ℤ
  | 0, q, e => (q, e)
  | fuel+1, q, e =>
    if Q2.lt q (Q2.ofInt 4503599627370496) then
      normLoop fuel (Q2.mul q (Q2.ofInt 2)) (e - 1)
    else if Q2.le (Q2.ofInt 9007199254740992) q then
      normLoop fuel (Q2.div q (Q2.ofInt 2)) (e + 1)
    else (q, e)

/-- Nearest integer to `q`, ties to even (IEEE-754 default rounding). -/
def roundHalfEven (q : Q2) : ℤ :=
  let n := q.floor
  let r := Q2.sub q (Q2.ofInt n)
  if Q2.lt r (qv 1 2) then n
  else if Q2.lt (qv 1 2) r then n + 1
  else if n % 2 = 0 then n else n + 1

/-- Round a positive rational to the nearest binary64 value. -/
def roundFloatPos (q : Q2) : Q2 :=
  let p := normLoop 160 q 0
  Q2.mul (Q2.ofInt (roundHalfEven p.1)) (Q2.powInt (Q2.ofInt 2) p.2)

/-- Round a rational to the nearest binary64 value (normal range).  This is
what Python does to the digits of a float literal at parse time. -/
def roundFloat (q : Q2) : Q2 :=
  if q.isZero then Q2.ofInt 0
  else if q.isNeg then Q2.neg (roundFloatPos (Q2.neg q))
  else roundFloatPos q

/-- Decimal exponent `d` of a positive rational: `10^d ≤ q < 10^(d+1)`. -/
def decExpLoop : ℕ → Q2 → ℤ → ℤ
  | 0, _, d => d
  | fuel+1, q, d =>
    if Q2.lt q (Q2.ofInt 1) then decExpLoop fuel (Q2.mul q (Q2.ofInt 10)) (d - 1)
    else if Q2.le (Q2.ofInt 10) q then decExpLoop fuel (Q2.div q (Q2.ofInt 10)) (d + 1)
    else d

/-- Value of the decimal obtained by rounding positive `q` to `p`
significant digits, half to even. -/
def sigRound (q : Q2) (p : ℕ) : Q2 :=
  let d := decExpLoop 60 q 0
  let s : ℤ := (p : ℤ) - 1 - d
  let sc := Q2.powInt (Q2.ofInt 10) s
  Q2.div (Q2.ofInt (roundHalfEven (Q2.mul q sc))) sc

/-- Search the shortest precision (1 to 17 significant digits) whose decimal
rounding of `q` parses back to `q`. -/
def shortestLoop (q : Q2) : ℕ → ℕ → Q2
  | 0, _ => q
  | fuel+1, p =>
    let c := sigRound q p
    if roundFloat c = q then c else shortestLoop q fuel (p + 1)

/-- Exact value of `str(v)` for a binary64 value `v`: the shortest decimal
that round-trips (CPython's `repr` algorithm, value level). -/
def shortestRepr (q : Q2) : Q2 :=
  if q.isZero then Q2.ofInt 0
  else if q.isNeg then Q2.neg (shortestLoop (Q2.neg q) 17 1)
  else shortestLoop q 17 1

/-! ## Values -/

/-- Float-typed runtime values.  `rat q` is the binary64 value equal to the
rational `q`; `sym1`/`sym2` carry results that are not rational (math
functions, fractional powers) symbolically. -/
inductive RVal where
  | rat (q : Q2)
  | sym1 (tag : String) (a : RVal)
  | sym2 (tag : String) (a b : RVal)
deriving DecidableEq

/-- The callables that can live in the whitelist: the unary `math`-module
functions, `math.log` (1 or 2 arguments), `math.floor`/`math.ceil`, builtin
`abs`, and the sample plugin's `cube`. -/
inductive Fn where
  | math1 (name : String)
  | logFn
  | floorFn
  | ceilFn
  | absFn
  | cube
deriving DecidableEq

/-- Python runtime values reachable in the evaluator: integers, floats,
decimals, strings, complex numbers (produced by `**` on a negative float
base with fractional exponent, carried symbolically) and function objects. -/
inductive Val where
  | intV (n : ℤ)
  | floatV (x : RVal)
  | decV (x : RVal)
  | strV (s : String)
  | complexV (x : RVal)
  | funV (f : Fn)
deriving DecidableEq

/-- Failure taxonomy as raised by the code: `valueErr` = `ValueError`,
`zeroDivErr` = `ZeroDivisionError` (and its `decimal` subclasses),
`typeErr` = host `TypeError`, `invalidOpErr` = `decimal.InvalidOperation`. -/
inductive Err where
  | valueErr (msg : String)
  | zeroDivErr (msg : String)
  | typeErr (msg : String)
  | invalidOpErr (msg : String)
deriving DecidableEq

/-- The errors the evaluator itself raises or deliberately re-raises
(`ValueError` and the `ZeroDivisionError` family); a `TypeError` or
`InvalidOperation` escaping a call is outside this taxonomy. -/
def inTaxonomy : Err → Bool
  | .valueErr _ => true
  | .zeroDivErr _ => true
  | _ => false

def isZeroDivErr : Err → Bool
  | .zeroDivErr _ => true
  | _ => false

def isNumericVal : Val → Bool
  | .intV _ => true
  | .floatV _ => true
  | .decV _ => true
  | _ => false

/-! ## Expression trees (the shapes `ast.parse` produces for this grammar) -/

inductive BOp where
  | add | sub | mult | div | mod | pow
deriving DecidableEq

inductive UOp where
  | uadd | usub
deriving DecidableEq

/-- `ast.Constant` payloads occurring here: int and float literals (numbers)
and string literals. -/
inductive Const where
  | intC (n : ℤ)
  | floatC (q : Q2)
  | strC (s : String)
deriving DecidableEq

/-- Expression tree: `ast.BinOp`, `ast.UnaryOp`, `ast.Call`, `ast.Constant`,
`ast.Name` and `ast.Attribute` (attribute access parses but is rejected by
the evaluator as an unsupported element). -/
inductive Node where
  | binOp (op : BOp) (left right : Node)
  | unaryOp (op : UOp) (operand : Node)
  | call (func : Node) (args : List Node)
  | constant (c : Const)
  | name (id : String)
  | attrAccess (obj : Node) (field : String)

/-! ## Result-with-trace -/

/-- Result of an evaluation plus the ghost trace of whitelist callables that
were invoked. -/
structure TR (α : Type) where
  res : Except Err α
  calls : List String

instance {ε α : Type} [DecidableEq ε] [DecidableEq α] : DecidableEq (Except ε α)
  | .ok a, .ok b =>
    decidable_of_iff (a = b) (by simp)
  | .ok _, .error _ => .isFalse (by simp)
  | .error _, .ok _ => .isFalse (by simp)
  | .error e, .error f =>
    decidable_of_iff (e = f) (by simp)

instance {α : Type} [DecidableEq α] : DecidableEq (TR α) := fun a b =>
  decidable_of_iff (a.res = b.res ∧ a.calls = b.calls) (by
    cases a; cases b; simp)

def TR.pure {α : Type} (a : α) : TR α := ⟨.ok a, []⟩

def TR.fail {α : Type} (e : Err) : TR α := ⟨.error e, []⟩

def TR.ofExcept {α : Type} (r : Except Err α) : TR α := ⟨r, []⟩

def TR.bind {α β : Type} (x : TR α) (f : α → TR β) : TR β :=
  match x.res with
  | .error e => ⟨.error e, x.calls⟩
  | .ok a => let y := f a; ⟨y.res, x.calls ++ y.calls⟩

instance : Monad TR where
  pure := TR.pure
  bind := TR.bind

/-- Invoking the callable registered under `fname`: the result of the call
together with a trace entry recording that the callable was executed. -/
def TR.callRecord (fname : String) (r : Except Err Val) : TR Val := ⟨r, [fname]⟩

/-! ## Python numeric primitives (`operator.add` etc. on the value types) -/

/-- Python `int ** int`. -/
def pyIntPow (a e : ℤ) : Except Err Val :=
  if 0 ≤ e then .ok (.intV (ipowN a e.toNat))
  else if a = 0 then .error (.zeroDivErr "zero cannot be raised to a negative power")
  else .ok (.floatV (.rat (roundFloat (Q2.powInt (Q2.ofInt a) e))))

/-- Python `float ** float` (after promotion).  A fractional power of a
negative base does not raise in Python 3: it returns a complex number. -/
def pyFloatPow (x y : Q2) : Except Err Val :=
  if y.isInt then
    if x.isZero ∧ y.isNeg then
      .error (.zeroDivErr "zero cannot be raised to a negative power")
    else .ok (.floatV (.rat (roundFloat (Q2.powInt x y.num))))
  else if x.isNeg then .ok (.complexV (.sym2 "cpow" (.rat x) (.rat y)))
  else if x.isZero then
    if y.isNeg then .error (.zeroDivErr "zero cannot be raised to a negative power")
    else .ok (.floatV (.rat (Q2.ofInt 0)))
  else .ok (.floatV (.sym2 "pow" (.rat x) (.rat y)))

/-- Python float `%`: result has the sign of the divisor (floor modulus). -/
def ratFloorMod (x y : Q2) : Q2 :=
  Q2.sub x (Q2.mul y (Q2.ofInt (Q2.floor (Q2.div x y))))

/-- Truncation toward zero (denominators are positive). -/
def Q2.trunc (a : Q2) : ℤ := Int.tdiv a.num a.den

/-- `Decimal` `%`: the remainder truncates toward zero, so the result has
the sign of the dividend — unlike Python's float `%`. -/
def ratTruncMod (x y : Q2) : Q2 :=
  Q2.sub x (Q2.mul y (Q2.ofInt (Q2.trunc (Q2.div x y))))

/-- Binary operations on two rational-valued floats. -/
def floatRatOp (op : BOp) (x y : Q2) : Except Err Val :=
  match op with
  | .add => .ok (.floatV (.rat (roundFloat (Q2.add x y))))
  | .sub => .ok (.floatV (.rat (roundFloat (Q2.sub x y))))
  | .mult => .ok (.floatV (.rat (roundFloat (Q2.mul x y))))
  | .div =>
    if y.isZero then .error (.zeroDivErr "float division by zero")
    else .ok (.floatV (.rat (roundFloat (Q2.div x y))))
  | .mod =>
    if y.isZero then .error (.zeroDivErr "float modulo")
    else .ok (.floatV (.rat (roundFloat (ratFloorMod x y))))
  | .pow => pyFloatPow x y

def bopTag : BOp → String
  | .add => "add" | .sub => "sub" | .mult => "mult"
  | .div => "div" | .mod => "mod" | .pow => "pow"

/-- Binary operations where at least one float operand is symbolic. -/
def floatSymOp (op : BOp) (x y : RVal) : Except Err Val :=
  .ok (.floatV (.sym2 (bopTag op) x y))

def floatOp (op : BOp) (x y : RVal) : Except Err Val :=
  match x, y with
  | .rat a, .rat b => floatRatOp op a b
  | a, b => floatSymOp op a b

/-- `Decimal ** Decimal` under the default context.  A negative base with a
non-integral exponent signals `InvalidOperation`; `0 ** negative` signals
`DivisionByZero`. -/
def decPow (x y : Q2) : Except Err Val :=
  if y.isInt then
    if x.isZero ∧ y.isNeg then .error (.zeroDivErr "x ** 0 with negative power")
    else .ok (.decV (.rat (Q2.powInt x y.num)))
  else if x.isNeg then .error (.invalidOpErr "x ** (non-integer)")
  else .ok (.decV (.sym2 "pow" (.rat x) (.rat y)))

/-- Whether an exact quotient is a finite decimal inside the default
28-digit context (sufficient criterion: scaling by `10^40` clears the
denominator); otherwise the context-rounded value is carried symbolically. -/
def finiteDecimal (q : Q2) : Bool :=
  (Q2.mul q (Q2.powN (Q2.ofInt 10) 40)).isInt

/-- Binary operations on two rational-valued decimals, following the
`decimal` module:  `/` by a zero divisor signals `DivisionByZero` (a
`ZeroDivisionError` subclass) for a nonzero dividend, but `0 / 0` signals
the `DivisionUndefined` condition, which CPython raises as plain
`InvalidOperation`; `%` by zero signals `InvalidOperation` for every
dividend (`DivisionUndefined`, again plain `InvalidOperation`, for
`0 % 0`); a nonzero `%` is the truncating remainder, with the sign of the
dividend. -/
def decRatOp (op : BOp) (x y : Q2) : Except Err Val :=
  match op with
  | .add => .ok (.decV (.rat (Q2.add x y)))
  | .sub => .ok (.decV (.rat (Q2.sub x y)))
  | .mult => .ok (.decV (.rat (Q2.mul x y)))
  | .div =>
    if y.isZero then
      if x.isZero then .error (.invalidOpErr "0 / 0")
      else .error (.zeroDivErr "x / 0")
    else if finiteDecimal (Q2.div x y) then .ok (.decV (.rat (Q2.div x y)))
    else .ok (.decV (.sym2 "div" (.rat x) (.rat y)))
  | .mod =>
    if y.isZero then
      if x.isZero then .error (.invalidOpErr "0 % 0")
      else .error (.invalidOpErr "x % 0")
    else .ok (.decV (.rat (ratTruncMod x y)))
  | .pow => decPow x y

def decOp (op : BOp) (x y : RVal) : Except Err Val :=
  match x, y with
  | .rat a, .rat b => decRatOp op a b
  | a, b => .ok (.decV (.sym2 (bopTag op) a b))

/-- Python `int op int`. -/
def intOp (op : BOp) (a b : ℤ) : Except Err Val :=
  match op with
  | .add => .ok (.intV (a + b))
  | .sub => .ok (.intV (a - b))
  | .mult => .ok (.intV (a * b))
  | .div =>
    if b = 0 then .error (.zeroDivErr "division by zero")
    else .ok (.floatV (.rat (roundFloat (qv a b))))
  | .mod =>
    if b = 0 then .error (.zeroDivErr "integer modulo by zero")
    else .ok (.intV (Int.fmod a b))
  | .pow => pyIntPow a b

/-- The raw result of a Python binary operation on two values, before the
evaluator's `try/except` wrapping: `TypeError`s for unsupported operand
combinations, `str + str` concatenation and `str * int` repetition included
for faithfulness.  Operations on a (symbolic) complex operand succeed
symbolically except `%`, which Python 3 removed for complex. -/
def binRaw (op : BOp) (u v : Val) : Except Err Val :=
  match u, v with
  | .intV a, .intV b => intOp op a b
  | .intV a, .floatV y => floatOp op (.rat (Q2.ofInt a)) y
  | .floatV x, .intV b => floatOp op x (.rat (Q2.ofInt b))
  | .floatV x, .floatV y => floatOp op x y
  | .intV a, .decV y => decOp op (.rat (Q2.ofInt a)) y
  | .decV x, .intV b => decOp op x (.rat (Q2.ofInt b))
  | .decV x, .decV y => decOp op x y
  | .strV s, .strV t =>
    match op with
    | .add => .ok (.strV (s ++ t))
    | _ => .error (.typeErr "unsupported operand types for str and str")
  | .strV s, .intV n =>
    match op with
    | .mult => .ok (.strV (String.join (List.replicate n.toNat s)))
    | _ => .error (.typeErr "unsupported operand types for str and int")
  | .intV n, .strV s =>
    match op with
    | .mult => .ok (.strV (String.join (List.replicate n.toNat s)))
    | _ => .error (.typeErr "unsupported operand types for int and str")
  | .complexV x, w =>
    match op, w with
    | .mod, _ => .error (.typeErr "unsupported operand types for mod")
    | _, .intV b => .ok (.complexV (.sym2 (bopTag op) x (.rat (Q2.ofInt b))))
    | _, .floatV y => .ok (.complexV (.sym2 (bopTag op) x y))
    | _, .complexV y => .ok (.complexV (.sym2 (bopTag op) x y))
    | _, _ => .error (.typeErr "unsupported operand types for complex")
  | w, .complexV y =>
    match op, w with
    | .mod, _ => .error (.typeErr "unsupported operand types for mod")
    | _, .intV a => .ok (.complexV (.sym2 (bopTag op) (.rat (Q2.ofInt a)) y))
    | _, .floatV x => .ok (.complexV (.sym2 (bopTag op) x y))
    | _, _ => .error (.typeErr "unsupported operand types for complex")
  | _, _ => .error (.typeErr "unsupported operand types")

/-- The evaluator's wrapping of a binary operation (lines 108-113):
`ZeroDivisionError` is re-raised; any other exception becomes
`ValueError("Error in binary operation: ...")`. -/
def wrapBin (r : Except Err Val) : Except Err Val :=
  match r with
  | .ok v => .ok v
  | .error (.zeroDivErr m) => .error (.zeroDivErr m)
  | .error (.valueErr m) => .error (.valueErr ("Error in binary operation: " ++ m))
  | .error (.typeErr m) => .error (.valueErr ("Error in binary operation: " ++ m))
  | .error (.invalidOpErr m) => .error (.valueErr ("Error in binary operation: " ++ m))

def negRVal : RVal → RVal
  | .rat q => .rat (Q2.neg q)
  | x => .sym1 "neg" x

/-- Python unary `+`/`-`.  The evaluator has no `try/except` here, so a
`TypeError` on a non-numeric operand escapes unwrapped. -/
def unaryRaw (op : UOp) (v : Val) : Except Err Val :=
  match v with
  | .intV n => .ok (.intV (match op with | .uadd => n | .usub => -n))
  | .floatV x => .ok (.floatV (match op with | .uadd => x | .usub => negRVal x))
  | .decV x => .ok (.decV (match op with | .uadd => x | .usub => negRVal x))
  | .complexV x => .ok (.complexV (match op with | .uadd => x | .usub => .sym1 "neg" x))
  | _ => .error (.typeErr "bad operand type for unary op")

/-- `_to_number` (lines 83-93): in decimal mode an `int` becomes
`Decimal(value)` and a `float` becomes `Decimal(str(value))` — i.e. through
the float's shortest round-tripping decimal representation; every other
value (including strings) is returned unchanged. -/
def to_number (v : Val) (decimal : Bool) : Val :=
  if decimal then
    match v with
    | .decV x => .decV x
    | .intV n => .decV (.rat (Q2.ofInt n))
    | .floatV (.rat q) => .decV (.rat (shortestRepr q))
    | .floatV x => .decV (.sym1 "strConv" x)
    | w => w
  else v

/-! ## Name registry -/

/-- Dictionary lookup (`name in d` / `d[name]`). -/
def lookup (d : List (String × Val)) (n : String) : Option Val :=
  (d.find? (fun kv => kv.1 == n)).map (fun kv => kv.2)

/-- Dictionary assignment `d[k] = v`: replace an existing binding in place
or append a new one. -/
def dictSet (d : List (String × Val)) (k : String) (v : Val) : List (String × Val) :=
  match d with
  | [] => [(k, v)]
  | kv :: rest => if kv.1 == k then (k, v) :: rest else kv :: dictSet rest k v

/-- `dict.update(mapping)`: set every pair of the mapping in order. -/
def dictUpdate (d m : List (String × Val)) : List (String × Val) :=
  m.foldl (fun acc kv => dictSet acc kv.1 kv.2) d

/-- The exact binary64 value of `math.pi`. -/
def piFloat : Q2 := qv 884279719003555 281474976710656

/-- The exact binary64 value of `math.e`. -/
def eFloat : Q2 := qv 6121026514868073 2251799813685248

/-- `DEFAULT_ALLOWED_NAMES` (lines 26-42): two float constants and the
whitelisted math callables. -/
def DEFAULT_ALLOWED_NAMES : List (String × Val) :=
  [("pi", .floatV (.rat piFloat)),
   ("e", .floatV (.rat eFloat)),
   ("sin", .funV (.math1 "sin")),
   ("cos", .funV (.math1 "cos")),
   ("tan", .funV (.math1 "tan")),
   ("asin", .funV (.math1 "asin")),
   ("acos", .funV (.math1 "acos")),
   ("atan", .funV (.math1 "atan")),
   ("sqrt", .funV (.math1 "sqrt")),
   ("log", .funV .logFn),
   ("log10", .funV (.math1 "log10")),
   ("exp", .funV (.math1 "exp")),
   ("floor", .funV .floorFn),
   ("ceil", .funV .ceilFn),
   ("abs", .funV .absFn)]

/-- What `plugins/sample_plugin.py` registers: the callable `cube` and the
non-numeric string constant `author`. -/
def sample_plugin_names : List (String × Val) :=
  [("cube", .funV .cube), ("author", .strV "plugin-sample")]

/-! ## Whitelist callables -/

/-- The float coercion the `math` functions apply to their argument
(`__float__`); non-numeric arguments raise `TypeError`. -/
def toFloatArg : Val → Option RVal
  | .intV n => some (.rat (Q2.ofInt n))
  | .floatV x => some x
  | .decV (.rat q) => some (.rat (roundFloat q))
  | .decV x => some (.sym1 "floatOfDec" x)
  | _ => none

/-- Domain check of the unary math functions on an exactly known argument:
`ValueError("math domain error")` outside the domain, otherwise a symbolic
correctly-rounded float result. -/
def math1Apply (nm : String) (x : RVal) : Except Err Val :=
  match x with
  | .rat q =>
    if nm == "sqrt" ∧ q.isNeg then .error (.valueErr "math domain error")
    else if nm == "log10" ∧ (q.isNeg ∨ q.isZero) then .error (.valueErr "math domain error")
    else if (nm == "asin" ∨ nm == "acos") ∧ (Q2.lt q (Q2.ofInt (-1)) ∨ Q2.lt (Q2.ofInt 1) q) then
      .error (.valueErr "math domain error")
    else .ok (.floatV (.sym1 nm x))
  | _ => .ok (.floatV (.sym1 nm x))

/-- Floor/ceil on an exactly known value is an exact `int`; on a symbolic
argument the integer result is represented as a symbolic float (a corner no
claim reaches). -/
def floorCeil (up : Bool) (x : RVal) : Except Err Val :=
  match x with
  | .rat q => .ok (.intV (if up then q.ceil else q.floor))
  | _ => .ok (.floatV (.sym1 (if up then "ceil" else "floor") x))

/-- Calling a whitelist callable with an argument list.  A wrong argument
count raises the callable's own `TypeError` — the evaluator does not wrap
the call site, so this escapes as-is. -/
def applyFn : Fn → List Val → Except Err Val
  | .math1 nm, [v] =>
    match toFloatArg v with
    | none => .error (.typeErr "must be real number")
    | some x => math1Apply nm x
  | .math1 nm, _ => .error (.typeErr (nm ++ "() takes exactly one argument"))
  | .logFn, [v] =>
    (match toFloatArg v with
     | none => .error (.typeErr "must be real number")
     | some x =>
       match x with
       | .rat q => if q.isNeg ∨ q.isZero then .error (.valueErr "math domain error")
                   else .ok (.floatV (.sym1 "log" x))
       | _ => .ok (.floatV (.sym1 "log" x)))
  | .logFn, [v, w] =>
    (match toFloatArg v, toFloatArg w with
     | some x, some y => .ok (.floatV (.sym2 "log" x y))
     | _, _ => .error (.typeErr "must be real number"))
  | .logFn, _ => .error (.typeErr "log() takes one or two arguments")
  | .floorFn, [v] =>
    (match toFloatArg v with
     | none => .error (.typeErr "must be real number")
     | some x => floorCeil false x)
  | .floorFn, _ => .error (.typeErr "floor() takes exactly one argument")
  | .ceilFn, [v] =>
    (match toFloatArg v with
     | none => .error (.typeErr "must be real number")
     | some x => floorCeil true x)
  | .ceilFn, _ => .error (.typeErr "ceil() takes exactly one argument")
  | .absFn, [v] =>
    (match v with
     | .intV n => .ok (.intV (if n < 0 then -n else n))
     | .floatV (.rat q) => .ok (.floatV (.rat (if q.isNeg then Q2.neg q else q)))
     | .floatV x => .ok (.floatV (.sym1 "abs" x))
     | .decV (.rat q) => .ok (.decV (.rat (if q.isNeg then Q2.neg q else q)))
     | .decV x => .ok (.decV (.sym1 "abs" x))
     | .complexV x => .ok (.floatV (.sym1 "abs" x))
     | _ => .error (.typeErr "bad operand type for abs"))
  | .absFn, _ => .error (.typeErr "abs() takes exactly one argument")
  | .cube, [v] => binRaw .pow v (.intV 3)
  | .cube, _ => .error (.typeErr "cube() takes exactly one positional argument")

/-! ## The evaluator -/

/-- `ExpressionEvaluator.__init__` state: the `allow_ans` flag and the
owned copy of the whitelist. -/
structure ExpressionEvaluator where
  allow_ans : Bool
  allowed_names : List (String × Val)

/-- `register_names` (lines 60-62): merge the mapping into the whitelist. -/
def register_names (ev : ExpressionEvaluator) (m : List (String × Val)) :
    ExpressionEvaluator :=
  { ev with allowed_names := dictUpdate ev.allowed_names m }

/-- The default evaluator instance (`allow_ans=True`, default whitelist). -/
def defaultEv : ExpressionEvaluator := ⟨true, DEFAULT_ALLOWED_NAMES⟩

mutual

/-- `_eval_node` (lines 95-169), case for case, same dispatch order. -/
def eval_node (ev : ExpressionEvaluator) (ans : Option Val)
    (vars : List (String × Val)) (decimal : Bool) : Node → TR Val
  | .binOp op l r => do
    let lv ← eval_node ev ans vars decimal l
    let rv ← eval_node ev ans vars decimal r
    TR.ofExcept (wrapBin (binRaw op (to_number lv decimal) (to_number rv decimal)))
  | .unaryOp op x => do
    let v ← eval_node ev ans vars decimal x
    TR.ofExcept (unaryRaw op (to_number v decimal))
  | .call f args =>
    if decimal then TR.fail (.valueErr "Function calls are disabled in decimal mode")
    else
      match f with
      | .name fname =>
        (match lookup ev.allowed_names fname with
         | some (.funV fn) => do
           let vs ← eval_args ev ans vars decimal args
           TR.callRecord fname (applyFn fn vs)
         | some _ => TR.fail (.valueErr ("Function " ++ fname ++ " is not allowed"))
         | none => TR.fail (.valueErr ("Function " ++ fname ++ " is not allowed")))
      | _ => TR.fail (.valueErr "Only direct function calls are allowed")
  | .constant c =>
    (match c with
     | .intC n => TR.pure (to_number (.intV n) decimal)
     | .floatC q => TR.pure (to_number (.floatV (.rat q)) decimal)
     | .strC _ => TR.fail (.valueErr "Only numeric literals are allowed"))
  | .name nid =>
    if nid == "ans" && ev.allow_ans then
      match ans with
      | none => TR.fail (.valueErr "No previous answer available (ans is None)")
      | some a => TR.pure (to_number a decimal)
    else
      match lookup vars nid with
      | some v =>
        if isNumericVal v then TR.pure (to_number v decimal)
        else TR.fail (.valueErr ("Variable " ++ nid ++ " does not hold a numeric value"))
      | none =>
        match lookup ev.allowed_names nid with
        | some v => TR.pure v
        | none => TR.fail (.valueErr ("Use of name " ++ nid ++ " is not allowed"))
  | .attrAccess _ _ => TR.fail (.valueErr "Unsupported expression element: Attribute")

/-- Left-to-right evaluation of a call's argument list. -/
def eval_args (ev : ExpressionEvaluator) (ans : Option Val)
    (vars : List (String × Val)) (decimal : Bool) : List Node → TR (List Val)
  | [] => TR.pure []
  | a :: rest => do
    let v ← eval_node ev ans vars decimal a
    let vs ← eval_args ev ans vars decimal rest
    TR.pure (v :: vs)

end

/-! ## Tokenizer and parser

Modelled from the spec: the Parser component (§4.1) is Python's `ast.parse`
restricted to the arithmetic grammar — binary `+ - * / % **` with the
documented precedence (power right-associative and binding tighter than
unary minus), unary `+ -`, parentheses, call syntax with positional
arguments, attribute access, bare identifiers, numeric literals in integer
and decimal-point form, and simple quoted string literals.  A float
literal's digits are converted to the nearest binary64 value at parse time,
exactly as `ast.parse` stores a rounded `float` in `ast.Constant`. -/

inductive Tok where
  | numTok (c : Const)
  | identTok (s : String)
  | strTok (s : String)
  | plusT | minusT | starT | dstarT | slashT | percentT
  | lparenT | rparenT | commaT | dotT
deriving DecidableEq

/-- Canonicalization of the alternate exponent spelling:
`expression.replace("^", "**")` (line 74). -/
def replaceCaret : List Char → List Char
  | [] => []
  | c :: r => if c == '^' then '*' :: '*' :: replaceCaret r else c :: replaceCaret r

def digitsToNat (ds : List Char) : ℕ :=
  ds.foldl (fun a c => a * 10 + (c.toNat - 48)) 0

/-- Exact rational value of the literal digits `ds . fs`. -/
def litVal (ds fs : List Char) : Q2 :=
  Q2.add (Q2.ofInt (digitsToNat ds : ℤ))
    (Q2.div (Q2.ofInt (digitsToNat fs : ℤ)) (Q2.powN (Q2.ofInt 10) fs.length))

def isIdentStart (c : Char) : Bool := c.isAlpha || c == '_'

def isIdentChar (c : Char) : Bool := c.isAlpha || c.isDigit || c == '_'

/-- Tokenizer over the characters (after caret replacement). -/
def tokenize : ℕ → List Char → Except Unit (List Tok)
  | 0, _ => .error ()
  | _, [] => .ok []
  | fuel+1, c :: rest =>
    if c == ' ' then tokenize fuel rest
    else if c.isDigit then
      let p := List.span Char.isDigit (c :: rest)
      match p.2 with
      | '.' :: r2 =>
        let pf := List.span Char.isDigit r2
        (do
          let toks ← tokenize fuel pf.2
          .ok (.numTok (.floatC (roundFloat (litVal p.1 pf.1))) :: toks))
      | r1 => do
        let toks ← tokenize fuel r1
        .ok (.numTok (.intC (digitsToNat p.1)) :: toks)
    else if isIdentStart c then
      let p := List.span isIdentChar (c :: rest)
      (do
        let toks ← tokenize fuel p.2
        .ok (.identTok (String.mk p.1) :: toks))
    else if c == '*' then
      match rest with
      | '*' :: r => do
        let toks ← tokenize fuel r
        .ok (.dstarT :: toks)
      | r => do
        let toks ← tokenize fuel r
        .ok (.starT :: toks)
    else if c == '"' || c == Char.ofNat 39 then
      let p := List.span (fun d => !(d == c)) rest
      match p.2 with
      | _ :: r2 => do
        let toks ← tokenize fuel r2
        .ok (.strTok (String.mk p.1) :: toks)
      | [] => .error ()
    else
      (do
        let toks ← tokenize fuel rest
        match c with
        | '+' => .ok (.plusT :: toks)
        | '-' => .ok (.minusT :: toks)
        | '/' => .ok (.slashT :: toks)
        | '%' => .ok (.percentT :: toks)
        | '(' => .ok (.lparenT :: toks)
        | ')' => .ok (.rparenT :: toks)
        | ',' => .ok (.commaT :: toks)
        | '.' => .ok (.dotT :: toks)
        | _ => .error ())

mutual

/-- `expr := term (('+'|'-') term)*`, left-associative. -/
def parseExpr : ℕ → List Tok → Except Unit (Node × List Tok)
  | 0, _ => .error ()
  | fuel+1, ts => do
    let p ← parseTerm fuel ts
    parseExprLoop fuel p.1 p.2

def parseExprLoop : ℕ → Node → List Tok → Except Unit (Node × List Tok)
  | 0, _, _ => .error ()
  | fuel+1, acc, ts =>
    match ts with
    | .plusT :: r => do
      let p ← parseTerm fuel r
      parseExprLoop fuel (.binOp .add acc p.1) p.2
    | .minusT :: r => do
      let p ← parseTerm fuel r
      parseExprLoop fuel (.binOp .sub acc p.1) p.2
    | _ => .ok (acc, ts)

/-- `term := factor (('*'|'/'|'%') factor)*`, left-associative. -/
def parseTerm : ℕ → List Tok → Except Unit (Node × List Tok)
  | 0, _ => .error ()
  | fuel+1, ts => do
    let p ← parseFactor fuel ts
    parseTermLoop fuel p.1 p.2

def parseTermLoop : ℕ → Node → List Tok → Except Unit (Node × List Tok)
  | 0, _, _ => .error ()
  | fuel+1, acc, ts =>
    match ts with
    | .starT :: r => do
      let p ← parseFactor fuel r
      parseTermLoop fuel (.binOp .mult acc p.1) p.2
    | .slashT :: r => do
      let p ← parseFactor fuel r
      parseTermLoop fuel (.binOp .div acc p.1) p.2
    | .percentT :: r => do
      let p ← parseFactor fuel r
      parseTermLoop fuel (.binOp .mod acc p.1) p.2
    | _ => .ok (acc, ts)

/-- `factor := ('+'|'-') factor | power` — so unary minus binds looser than
`**`, which sits below in `parsePower`. -/
def parseFactor : ℕ → List Tok → Except Unit (Node × List Tok)
  | 0, _ => .error ()
  | fuel+1, ts =>
    match ts with
    | .plusT :: r => do
      let p ← parseFactor fuel r
      .ok (.unaryOp .uadd p.1, p.2)
    | .minusT :: r => do
      let p ← parseFactor fuel r
      .ok (.unaryOp .usub p.1, p.2)
    | _ => parsePower fuel ts

/-- `power := primary ['**' factor]` — right-associative, and the exponent
may carry a unary sign. -/
def parsePower : ℕ → List Tok → Except Unit (Node × List Tok)
  | 0, _ => .error ()
  | fuel+1, ts => do
    let p ← parsePrimary fuel ts
    match p.2 with
    | .dstarT :: r => do
      let q ← parseFactor fuel r
      .ok (.binOp .pow p.1 q.1, q.2)
    | _ => .ok p

/-- `primary := atom trailer*` with call and attribute trailers. -/
def parsePrimary : ℕ → List Tok → Except Unit (Node × List Tok)
  | 0, _ => .error ()
  | fuel+1, ts => do
    let p ← parseAtom fuel ts
    parseTrailers fuel p.1 p.2

def parseTrailers : ℕ → Node → List Tok → Except Unit (Node × List Tok)
  | 0, _, _ => .error ()
  | fuel+1, base, ts =>
    match ts with
    | .lparenT :: .rparenT :: r => parseTrailers fuel (.call base []) r
    | .lparenT :: r => do
      let p ← parseArgs fuel r
      parseTrailers fuel (.call base p.1) p.2
    | .dotT :: .identTok n :: r => parseTrailers fuel (.attrAccess base n) r
    | _ => .ok (base, ts)

/-- Positional argument list, closed by `)`. -/
def parseArgs : ℕ → List Tok → Except Unit (List Node × List Tok)
  | 0, _ => .error ()
  | fuel+1, ts => do
    let p ← parseExpr fuel ts
    match p.2 with
    | .commaT :: r => do
      let q ← parseArgs fuel r
      .ok (p.1 :: q.1, q.2)
    | .rparenT :: r => .ok ([p.1], r)
    | _ => .error ()

def parseAtom : ℕ → List Tok → Except Unit (Node × List Tok)
  | 0, _ => .error ()
  | fuel+1, ts =>
    match ts with
    | .numTok c :: r => .ok (.constant c, r)
    | .strTok s :: r => .ok (.constant (.strC s), r)
    | .identTok n :: r => .ok (.name n, r)
    | .lparenT :: r => do
      let p ← parseExpr fuel r
      match p.2 with
      | .rparenT :: r2 => .ok (p.1, r2)
      | _ => .error ()
    | _ => .error ()

end

/-- Parse a complete token list (`mode="eval"`: one expression, all tokens
consumed). -/
def parseToks (ts : List Tok) : Except Unit Node :=
  match parseExpr (8 * ts.length + 16) ts with
  | .ok (n, []) => .ok n
  | _ => .error ()

/-- `ExpressionEvaluator.eval` (lines 64-81): canonicalize `^`, parse
(failures become `ValueError("Invalid expression: ...")`), then walk the
tree. -/
def ExpressionEvaluator.eval (ev : ExpressionEvaluator) (expression : String)
    (ans : Option Val) (vars : List (String × Val)) (decimal : Bool) : TR Val :=
  let chars := replaceCaret expression.data
  match tokenize (chars.length + 1) chars with
  | .error _ => TR.fail (.valueErr "Invalid expression")
  | .ok ts =>
    match parseToks ts with
    | .ok node => eval_node ev ans vars decimal node
    | .error _ => TR.fail (.valueErr "Invalid expression")

/-- Evaluation of an already-tokenized expression in float mode with an
empty context — used to state precedence properties over all expressions
built from literal and operator tokens. -/
def evalToks (ev : ExpressionEvaluator) (ts : List Tok) : TR Val :=
  match parseToks ts with
  | .ok node => eval_node ev none [] false node
  | .error _ => TR.fail (.valueErr "Invalid expression")

/-! ## Auxiliary predicates and lemmas -/

/-- Whether a tree contains a `Call` node anywhere. -/
def containsCall : Node → Bool
  | .binOp _ l r => containsCall l || containsCall r
  | .unaryOp _ x => containsCall x
  | .call _ _ => true
  | .constant _ => false
  | .name _ => false
  | .attrAccess o _ => containsCall o

/-- Whether some tree of the list contains a `Call` node. -/
def containsCallList : List Node → Bool
  | [] => false
  | t :: rest => containsCall t || containsCallList rest

/-- Whether the string parses to a tree containing a `Call` node. -/
def parsesWithCall (s : String) : Bool :=
  let chars := replaceCaret s.data
  match tokenize (chars.length + 1) chars with
  | .error _ => false
  | .ok ts =>
    match parseToks ts with
    | .ok node => containsCall node
    | .error _ => false

/-- Whether the registry binds `n` to a callable. -/
def isCallableName (d : List (String × Val)) (n : String) : Bool :=
  match lookup d n with
  | some (.funV _) => true
  | _ => false

/-- Whether an evaluation failed. -/
def TR.isErr {α : Type} (x : TR α) : Bool :=
  match x.res with
  | .error _ => true
  | .ok _ => false

theorem TR.isErr_bind {α β : Type} (x : TR α) (f : α → TR β) (h : x.isErr = true) :
    (TR.bind x f).isErr = true := by
  unfold TR.isErr at *
  unfold TR.bind
  cases hx : x.res with
  | error e => simp
  | ok a => rw [hx] at h; simp at h

theorem TR.isErr_bind_ok {α β : Type} (x : TR α) (f : α → TR β) (a : α)
    (hx : x.res = .ok a) (h : (f a).isErr = true) : (TR.bind x f).isErr = true := by
  unfold TR.isErr at *
  unfold TR.bind
  rw [hx]
  exact h

theorem TR.mem_bind_calls {α β : Type} (x : TR α) (f : α → TR β) (s : String)
    (h : s ∈ (TR.bind x f).calls) :
    s ∈ x.calls ∨ ∃ a, x.res = .ok a ∧ s ∈ (f a).calls := by
  unfold TR.bind at h
  cases hx : x.res with
  | error e => rw [hx] at h; exact Or.inl h
  | ok a =>
    rw [hx] at h
    simp only [List.mem_append] at h
    rcases h with h | h
    · exact Or.inl h
    · exact Or.inr ⟨a, rfl, h⟩

theorem TR.bind_eq {α β : Type} (x : TR α) (f : α → TR β) :
    (x >>= f) = TR.bind x f := rfl

theorem TR.pure_eq {α : Type} (a : α) : (Pure.pure a : TR α) = TR.pure a := rfl

theorem TR.calls_pure {α : Type} (a : α) : (TR.pure a).calls = [] := rfl

theorem TR.calls_fail {α : Type} (e : Err) : (TR.fail e : TR α).calls = [] := rfl

theorem TR.calls_ofExcept {α : Type} (r : Except Err α) : (TR.ofExcept r).calls = [] := rfl

mutual

/-- Every callable name recorded in the evaluation trace is bound to a
callable in the whitelist: nothing outside `allowed_names` is ever
invoked. -/
theorem eval_calls_whitelisted (ev : ExpressionEvaluator) (ans : Option Val)
    (vars : List (String × Val)) (d : Bool) :
    ∀ (t : Node) (s : String), s ∈ (eval_node ev ans vars d t).calls →
      isCallableName ev.allowed_names s = true
  | .binOp op l r, s, h => by
    simp only [eval_node, TR.bind_eq] at h
    rcases TR.mem_bind_calls _ _ _ h with h1 | ⟨a, _, h2⟩
    · exact eval_calls_whitelisted ev ans vars d l s h1
    · rcases TR.mem_bind_calls _ _ _ h2 with h3 | ⟨b, _, h4⟩
      · exact eval_calls_whitelisted ev ans vars d r s h3
      · rw [TR.calls_ofExcept] at h4
        exact absurd h4 (List.not_mem_nil s)
  | .unaryOp op x, s, h => by
    simp only [eval_node, TR.bind_eq] at h
    rcases TR.mem_bind_calls _ _ _ h with h1 | ⟨a, _, h2⟩
    · exact eval_calls_whitelisted ev ans vars d x s h1
    · rw [TR.calls_ofExcept] at h2
      exact absurd h2 (List.not_mem_nil s)
  | .call f args, s, h => by
    cases hd : d with
    | true =>
      rw [hd] at h
      simp [eval_node, TR.fail] at h
    | false =>
      rw [hd] at h
      cases f with
      | name fname =>
        cases hl : lookup ev.allowed_names fname with
        | none => simp [eval_node, hl, TR.fail] at h
        | some v =>
          cases v with
          | funV fn =>
            simp only [eval_node, hl, TR.bind_eq] at h
            simp only [Bool.false_eq_true, if_false] at h
            rcases TR.mem_bind_calls _ _ _ h with h1 | ⟨a, _, h2⟩
            · exact eval_args_calls_whitelisted ev ans vars false args s h1
            · simp only [TR.callRecord, List.mem_singleton] at h2
              subst h2
              simp [isCallableName, hl]
          | intV n => simp [eval_node, hl, TR.fail] at h
          | floatV x => simp [eval_node, hl, TR.fail] at h
          | decV x => simp [eval_node, hl, TR.fail] at h
          | strV t => simp [eval_node, hl, TR.fail] at h
          | complexV x => simp [eval_node, hl, TR.fail] at h
      | binOp op l r => simp [eval_node, TR.fail] at h
      | unaryOp op x => simp [eval_node, TR.fail] at h
      | call g as => simp [eval_node, TR.fail] at h
      | constant c => simp [eval_node, TR.fail] at h
      | attrAccess o fld => simp [eval_node, TR.fail] at h
  | .constant c, s, h => by
    cases c with
    | intC n => simp [eval_node, TR.pure] at h
    | floatC q => simp [eval_node, TR.pure] at h
    | strC t => simp [eval_node, TR.fail] at h
  | .name nid, s, h => by
    by_cases ha : (nid == "ans" && ev.allow_ans) = true
    · cases ans with
      | none => simp [eval_node, ha, TR.fail] at h
      | some a => simp [eval_node, ha, TR.pure] at h
    · cases hv : lookup vars nid with
      | some v =>
        by_cases hn : isNumericVal v = true
        · simp [eval_node, ha, hv, hn, TR.pure] at h
        · simp [eval_node, ha, hv, hn, TR.fail] at h
      | none =>
        cases hr : lookup ev.allowed_names nid with
        | some v => simp [eval_node, ha, hv, hr, TR.pure] at h
        | none => simp [eval_node, ha, hv, hr, TR.fail] at h
  | .attrAccess o fld, s, h => by
    simp [eval_node, TR.fail] at h

theorem eval_args_calls_whitelisted (ev : ExpressionEvaluator) (ans : Option Val)
    (vars : List (String × Val)) (d : Bool) :
    ∀ (l : List Node) (s : String), s ∈ (eval_args ev ans vars d l).calls →
      isCallableName ev.allowed_names s = true
  | [], s, h => by
    simp [eval_args, TR.pure] at h
  | a :: rest, s, h => by
    simp only [eval_args, TR.bind_eq] at h
    rcases TR.mem_bind_calls _ _ _ h with h1 | ⟨v, _, h2⟩
    · exact eval_calls_whitelisted ev ans vars d a s h1
    · rcases TR.mem_bind_calls _ _ _ h2 with h3 | ⟨vs, _, h4⟩
      · exact eval_args_calls_whitelisted ev ans vars d rest s h3
      · rw [TR.calls_pure] at h4
        exact absurd h4 (List.not_mem_nil s)

end

mutual

/-- In decimal mode, a tree containing any `Call` node never evaluates to a
value: the evaluation fails (with `ModeError` when the call is reached, or
with whatever error strikes earlier in evaluation order). -/
theorem eval_decimal_call_fails (ev : ExpressionEvaluator) (ans : Option Val)
    (vars : List (String × Val)) :
    ∀ (t : Node), containsCall t = true → (eval_node ev ans vars true t).isErr = true
  | .binOp op l r, h => by
    simp only [containsCall, Bool.or_eq_true] at h
    simp only [eval_node, TR.bind_eq]
    rcases h with h | h
    · exact TR.isErr_bind _ _ (eval_decimal_call_fails ev ans vars l h)
    · cases hl : (eval_node ev ans vars true l).res with
      | error e =>
        apply TR.isErr_bind
        unfold TR.isErr
        rw [hl]
      | ok a =>
        apply TR.isErr_bind_ok _ _ a hl
        exact TR.isErr_bind _ _ (eval_decimal_call_fails ev ans vars r h)
  | .unaryOp op x, h => by
    simp only [containsCall] at h
    simp only [eval_node, TR.bind_eq]
    exact TR.isErr_bind _ _ (eval_decimal_call_fails ev ans vars x h)
  | .call f args, _ => by
    simp [eval_node, TR.isErr, TR.fail]
  | .attrAccess o fld, h => by
    simp [eval_node, TR.isErr, TR.fail]

end

/-- The last binding a mapping itself provides for `n` (dictionary
semantics: later assignments win). -/
def lookupLast (m : List (String × Val)) (n : String) : Option Val :=
  match m with
  | [] => none
  | kv :: rest =>
    match lookupLast rest n with
    | some v => some v
    | none => if kv.1 == n then some kv.2 else none

theorem lookup_cons (kv : String × Val) (rest : List (String × Val)) (n : String) :
    lookup (kv :: rest) n = if kv.1 == n then some kv.2 else lookup rest n := by
  unfold lookup
  cases h : kv.1 == n <;> simp [List.find?, h]

theorem lookup_dictSet (d : List (String × Val)) (k : String) (v : Val) (n : String) :
    lookup (dictSet d k v) n = if k == n then some v else lookup d n := by
  induction d with
  | nil =>
    unfold dictSet
    rw [lookup_cons]
  | cons kv rest ih =>
    unfold dictSet
    by_cases hk : (kv.1 == k) = true
    · rw [if_pos hk, lookup_cons, lookup_cons]
      have hke : kv.1 = k := by simpa using hk
      subst hke
      by_cases hn : (kv.1 == n) = true
      · simp [hn]
      · simp [hn]
    · rw [if_neg hk, lookup_cons, ih]
      by_cases hn : (kv.1 == n) = true
      · have hne : kv.1 = n := by simpa using hn
        subst hne
        have hkn : (k == kv.1) = false := by
          cases hkk : k == kv.1 with
          | false => rfl
          | true =>
            exfalso
            apply hk
            have hkq : k = kv.1 := by simpa using hkk
            simp [hkq]
        simp [hn, hkn, lookup_cons]
      · simp [hn, lookup_cons]

theorem lookup_dictUpdate (d m : List (String × Val)) (n : String) :
    lookup (dictUpdate d m) n =
      match lookupLast m n with
      | some v => some v
      | none => lookup d n := by
  induction m generalizing d with
  | nil => simp [dictUpdate, lookupLast]
  | cons kv rest ih =>
    show lookup (dictUpdate (dictSet d kv.1 kv.2) rest) n = _
    rw [ih]
    cases hrest : lookupLast rest n with
    | some v => simp [lookupLast, hrest]
    | none =>
      simp only [lookupLast, hrest]
      rw [lookup_dictSet]
      by_cases hk : (kv.1 == n) = true
      · simp [hk]
      · simp [hk]

/-- `ipowN` is integer exponentiation. -/
theorem ipowN_eq (a : ℤ) (n : ℕ) : ipowN a n = a ^ n := by
  induction n with
  | zero => simp [ipowN]
  | succ k ih => rw [ipowN, ih, pow_succ, mul_comm]

theorem lookupLast_none (m : List (String × Val)) (n : String)
    (h : n ∉ m.map Prod.fst) : lookupLast m n = none := by
  induction m with
  | nil => rfl
  | cons kv rest ih =>
    simp only [List.map_cons, List.mem_cons] at h
    push_neg at h
    rw [lookupLast, ih h.2]
    have : (kv.1 == n) = false := by
      simp
      intro he
      exact h.1 he.symm
    simp [this]

/-! ## Claims -/

set_option maxRecDepth 20000

/-- C3, counterexample.  The claim says exact-decimal conversion works from
the literal's original textual digits and never through a float round-trip;
but the code converts `Decimal(str(float_literal))`, so a literal with more
digits than the float round-trip preserves is altered: evaluating
`0.10000000000000000555` in exact-decimal mode yields exactly `0.1`, not
the value of the written digits. -/
theorem claim_C3_counterexample :
    (defaultEv.eval "0.10000000000000000555" none [] true).res
      = .ok (.decV (.rat (qv 1 10)))
    ∧ qv 1 10 ≠ qv 10000000000000000555 100000000000000000000 := by
  constructor
  · decide
  · decide

/-- C3, amended.  In exact-decimal mode a float literal is converted via
`Decimal(str(v))`, the shortest round-tripping decimal representation of
its binary64 value `v`; for literals that are themselves shortest
representations (such as `0.1` and `0.2`) this recovers the written digits
exactly, so `evaluate("0.1+0.2", exact-decimal)` is exactly `0.3`. -/
theorem claim_C3_decimal_conversion :
    (∀ q : Q2, to_number (.floatV (.rat q)) true = .decV (.rat (shortestRepr q)))
    ∧ shortestRepr (roundFloat (qv 1 10)) = qv 1 10
    ∧ shortestRepr (roundFloat (qv 2 10)) = qv 2 10
    ∧ (defaultEv.eval "0.1+0.2" none [] true).res = .ok (.decV (.rat (qv 3 10))) := by
  refine ⟨fun q => rfl, by decide, by decide, by decide⟩

/-- C4, counterexample.  The claim says modulo by zero always fails with
`DivisionByZero`; but for `Decimal` operands a nonzero dividend modulo zero
signals `decimal.InvalidOperation`, which the evaluator wraps into the
generic `ValueError`, not a `ZeroDivisionError`. -/
theorem claim_C4_counterexample :
    (defaultEv.eval "1%0" none [] true).res
      = .error (.valueErr "Error in binary operation: x % 0")
    ∧ isZeroDivErr (.valueErr "Error in binary operation: x % 0") = false := by
  constructor
  · decide
  · decide

/-- C4, amended.  Division by zero fails with `DivisionByZero` for int and
float operands, and for Decimal operands with a nonzero dividend; modulo by
zero fails with `DivisionByZero` for int and float operands — never
producing infinity or NaN (the model has no such values; those branches
raise).  For Decimal operands, `0 / 0` signals the `DivisionUndefined`
condition, raised as plain `decimal.InvalidOperation`, and modulo by zero
signals `decimal.InvalidOperation` for every dividend; the evaluator wraps
these into `ValueError("Error in binary operation: ...")` rather than
re-raising a `ZeroDivisionError`.  In particular `evaluate("1/0", float)`
and `evaluate("1%0", float)` fail with `DivisionByZero`, while
`evaluate("0/0", exact-decimal)` fails with the wrapped `ValueError`. -/
theorem claim_C4_division_by_zero :
    (∀ a : ℤ, binRaw .div (.intV a) (.intV 0) = .error (.zeroDivErr "division by zero"))
    ∧ (∀ a : ℤ, binRaw .mod (.intV a) (.intV 0)
        = .error (.zeroDivErr "integer modulo by zero"))
    ∧ (∀ x : Q2, binRaw .div (.floatV (.rat x)) (.floatV (.rat (Q2.ofInt 0)))
        = .error (.zeroDivErr "float division by zero"))
    ∧ (∀ x : Q2, binRaw .mod (.floatV (.rat x)) (.floatV (.rat (Q2.ofInt 0)))
        = .error (.zeroDivErr "float modulo"))
    ∧ (∀ x : Q2, x.isZero = false →
        binRaw .div (.decV (.rat x)) (.decV (.rat (Q2.ofInt 0)))
          = .error (.zeroDivErr "x / 0"))
    ∧ wrapBin (binRaw .div (.decV (.rat (Q2.ofInt 0))) (.decV (.rat (Q2.ofInt 0))))
        = .error (.valueErr "Error in binary operation: 0 / 0")
    ∧ (∀ x : Q2, x.isZero = false →
        wrapBin (binRaw .mod (.decV (.rat x)) (.decV (.rat (Q2.ofInt 0))))
          = .error (.valueErr "Error in binary operation: x % 0"))
    ∧ wrapBin (binRaw .mod (.decV (.rat (Q2.ofInt 0))) (.decV (.rat (Q2.ofInt 0))))
        = .error (.valueErr "Error in binary operation: 0 % 0")
    ∧ (defaultEv.eval "0/0" none [] true).res
        = .error (.valueErr "Error in binary operation: 0 / 0")
    ∧ (defaultEv.eval "1/0" none [] false).res = .error (.zeroDivErr "division by zero")
    ∧ (defaultEv.eval "1%0" none [] false).res
        = .error (.zeroDivErr "integer modulo by zero") := by
  refine ⟨fun a => rfl, fun a => rfl, fun x => rfl, fun x => rfl, ?_, by decide, ?_,
    by decide, by decide, by decide, by decide⟩
  · intro x h
    have h2 : ¬(x.num = 0) := by simpa [Q2.isZero] using h
    simp [binRaw, decOp, decRatOp, Q2.isZero, Q2.ofInt, h2]
  · intro x h
    have h2 : ¬(x.num = 0) := by simpa [Q2.isZero] using h
    simp [binRaw, decOp, decRatOp, wrapBin, Q2.isZero, Q2.ofInt, h2]

/-- C4, witness for the nonzero-dividend hypotheses of the Decimal division
and modulo conjuncts. -/
theorem claim_C4_witness :
    (qv 3 1).isZero = false
    ∧ binRaw .div (.decV (.rat (qv 3 1))) (.decV (.rat (Q2.ofInt 0)))
        = .error (.zeroDivErr "x / 0")
    ∧ wrapBin (binRaw .mod (.decV (.rat (qv 3 1))) (.decV (.rat (Q2.ofInt 0))))
        = .error (.valueErr "Error in binary operation: x % 0") :=
  ⟨by decide, claim_C4_division_by_zero.2.2.2.2.1 (qv 3 1) (by decide),
   claim_C4_division_by_zero.2.2.2.2.2.2.1 (qv 3 1) (by decide)⟩

/-- C5, code bug.  The claim (and the evaluator's own `-> Number`
annotation) says a fractional power of a negative base fails with a typed
`ArithmeticError`; but Python 3 `pow` returns a complex number instead of
raising, so `evaluate("(-8)**0.5")` succeeds with a non-numeric complex
result and the `except` wrapper never fires. -/
theorem claim_C5_complex_result :
    (defaultEv.eval "(-8)**0.5" none [] false).res
      = .ok (.complexV (.sym2 "cpow" (.rat (qv (-8) 1)) (.rat (qv 1 2))))
    ∧ isNumericVal (.complexV (.sym2 "cpow" (.rat (qv (-8) 1)) (.rat (qv 1 2)))) = false := by
  constructor
  · decide
  · decide

/-- C6, counterexample.  The claim says a wrong argument count surfaces as a
typed `ArityError` of the error taxonomy; but `evaluate("sqrt(1,2)")` lets
the callable's own `TypeError` escape unwrapped, which is outside the
evaluator's `ValueError`/`ZeroDivisionError` taxonomy. -/
theorem claim_C6_counterexample :
    (defaultEv.eval "sqrt(1,2)" none [] false).res
      = .error (.typeErr "sqrt() takes exactly one argument")
    ∧ inTaxonomy (.typeErr "sqrt() takes exactly one argument") = false := by
  constructor
  · decide
  · decide

/-- C6, amended.  Calling a whitelisted unary math function with any number
of arguments other than one raises the callable's own `TypeError`, which
escapes the evaluator unwrapped (the call site has no `try/except`); in
particular `sqrt(1,2)` fails that way, after `sqrt` itself is invoked. -/
theorem claim_C6_arity_typeerror :
    (∀ (nm : String) (vs : List Val), vs.length ≠ 1 →
        applyFn (.math1 nm) vs = .error (.typeErr (nm ++ "() takes exactly one argument")))
    ∧ (defaultEv.eval "sqrt(1,2)" none [] false)
        = ⟨.error (.typeErr "sqrt() takes exactly one argument"), ["sqrt"]⟩ := by
  constructor
  · intro nm vs h
    cases vs with
    | nil => rfl
    | cons v rest =>
      cases rest with
      | nil => exact absurd rfl h
      | cons w r => rfl
  · decide

/-- C6, witness for the arity hypothesis. -/
theorem claim_C6_witness :
    ([Val.intV 1, Val.intV 2].length ≠ 1)
    ∧ applyFn (.math1 "sqrt") [Val.intV 1, Val.intV 2]
        = .error (.typeErr "sqrt() takes exactly one argument") :=
  ⟨by decide, claim_C6_arity_typeerror.1 "sqrt" [Val.intV 1, Val.intV 2] (by decide)⟩

/-- C2.  Identifier resolution follows the fixed order: (1) the reserved
token `ans`, when the feature is enabled, substitutes the previous result
or fails `NoPreviousResult` — even when a variable of the same name exists
(the variable map is arbitrary in the first two conjuncts); (2) otherwise a
caller-supplied variable binding substitutes, failing `NonNumericVariable`
on a non-numeric value; (3) otherwise a Name Registry constant; (4)
otherwise `UnknownName`.  Hence `evaluate("ans+2", previous_result=10)` is
`12`, `evaluate("ans+2")` with no previous result fails, and
`evaluate("x+2", variables={"x": 3})` is `5`. -/
theorem claim_C2_resolution_order :
    (∀ (reg vars : List (String × Val)) (a : Val) (d : Bool),
        eval_node ⟨true, reg⟩ (some a) vars d (.name "ans") = TR.pure (to_number a d))
    ∧ (∀ (reg vars : List (String × Val)) (d : Bool),
        eval_node ⟨true, reg⟩ none vars d (.name "ans")
          = TR.fail (.valueErr "No previous answer available (ans is None)"))
    ∧ (∀ (reg vars : List (String × Val)) (ans : Option Val) (d : Bool)
        (nid : String) (v : Val), nid ≠ "ans" → lookup vars nid = some v →
        isNumericVal v = true →
        eval_node ⟨true, reg⟩ ans vars d (.name nid) = TR.pure (to_number v d))
    ∧ (∀ (reg vars : List (String × Val)) (ans : Option Val) (d : Bool)
        (nid : String) (v : Val), nid ≠ "ans" → lookup vars nid = some v →
        isNumericVal v = false →
        eval_node ⟨true, reg⟩ ans vars d (.name nid)
          = TR.fail (.valueErr ("Variable " ++ nid ++ " does not hold a numeric value")))
    ∧ (∀ (reg vars : List (String × Val)) (ans : Option Val) (d : Bool)
        (nid : String) (v : Val), nid ≠ "ans" → lookup vars nid = none →
        lookup reg nid = some v →
        eval_node ⟨true, reg⟩ ans vars d (.name nid) = TR.pure v)
    ∧ (∀ (reg vars : List (String × Val)) (ans : Option Val) (d : Bool)
        (nid : String), nid ≠ "ans" → lookup vars nid = none →
        lookup reg nid = none →
        eval_node ⟨true, reg⟩ ans vars d (.name nid)
          = TR.fail (.valueErr ("Use of name " ++ nid ++ " is not allowed")))
    ∧ (defaultEv.eval "ans+2" (some (.intV 10)) [] false).res = .ok (.intV 12)
    ∧ (defaultEv.eval "ans+2" none [] false).res
        = .error (.valueErr "No previous answer available (ans is None)")
    ∧ (defaultEv.eval "x+2" none [("x", .intV 3)] false).res = .ok (.intV 5) := by
  refine ⟨fun reg vars a d => rfl, fun reg vars d => rfl, ?_, ?_, ?_, ?_,
    by decide, by decide, by decide⟩
  · intro reg vars ans d nid v hne hv hn
    have hb : (nid == "ans") = false := by simp [hne]
    simp [eval_node, hb, hv, hn]
  · intro reg vars ans d nid v hne hv hn
    have hb : (nid == "ans") = false := by simp [hne]
    simp [eval_node, hb, hv, hn]
  · intro reg vars ans d nid v hne hv hr
    have hb : (nid == "ans") = false := by simp [hne]
    simp [eval_node, hb, hv, hr]
  · intro reg vars ans d nid hne hv hr
    have hb : (nid == "ans") = false := by simp [hne]
    simp [eval_node, hb, hv, hr]

/-- C2, witness instantiating every hypothesis-bearing conjunct. -/
theorem claim_C2_witness :
    (eval_node ⟨true, DEFAULT_ALLOWED_NAMES⟩ none [("x", .intV 3)] false (.name "x")
        = TR.pure (to_number (.intV 3) false))
    ∧ (eval_node ⟨true, DEFAULT_ALLOWED_NAMES⟩ none [("x", .strV "s")] false (.name "x")
        = TR.fail (.valueErr ("Variable " ++ "x" ++ " does not hold a numeric value")))
    ∧ (eval_node ⟨true, [("c", .intV 7)]⟩ none [] false (.name "c") = TR.pure (.intV 7))
    ∧ (eval_node ⟨true, []⟩ none [] false (.name "zzz")
        = TR.fail (.valueErr ("Use of name " ++ "zzz" ++ " is not allowed"))) :=
  ⟨claim_C2_resolution_order.2.2.1 DEFAULT_ALLOWED_NAMES [("x", .intV 3)] none false
      "x" (.intV 3) (by decide) (by decide) (by decide),
   claim_C2_resolution_order.2.2.2.1 DEFAULT_ALLOWED_NAMES [("x", .strV "s")] none false
      "x" (.strV "s") (by decide) (by decide) (by decide),
   claim_C2_resolution_order.2.2.2.2.1 [("c", .intV 7)] [] none false
      "c" (.intV 7) (by decide) (by decide) (by decide),
   claim_C2_resolution_order.2.2.2.2.2.1 [] [] none false
      "zzz" (by decide) (by decide) (by decide)⟩

/-- C7, counterexample.  The claim says every expression containing a call
fails with `ModeError` in exact-decimal mode; `1/0+sin(1)` contains a call
but fails with `DivisionByZero` (the left operand fails first in evaluation
order), not with the mode error. -/
theorem claim_C7_counterexample :
    parsesWithCall "1/0+sin(1)" = true
    ∧ (defaultEv.eval "1/0+sin(1)" none [] true).res = .error (.zeroDivErr "x / 0")
    ∧ Err.zeroDivErr "x / 0"
        ≠ Err.valueErr "Function calls are disabled in decimal mode" := by
  refine ⟨by decide, by decide, by decide⟩

/-- C7, amended.  In exact-decimal mode every evaluated `Call` node fails
with `ModeError` before resolving the callee or touching any argument, so
an expression containing a call never evaluates to a value in exact-decimal
mode — the failure is the mode error when the call is the point of failure,
or an earlier error in evaluation order; in particular
`evaluate("sin(1)", exact-decimal)` fails with `ModeError` and invokes
nothing. -/
theorem claim_C7_decimal_mode_calls :
    (∀ (ev : ExpressionEvaluator) (ans : Option Val) (vars : List (String × Val))
        (f : Node) (args : List Node),
        eval_node ev ans vars true (.call f args)
          = TR.fail (.valueErr "Function calls are disabled in decimal mode"))
    ∧ (∀ (ev : ExpressionEvaluator) (ans : Option Val) (vars : List (String × Val))
        (t : Node), containsCall t = true → (eval_node ev ans vars true t).isErr = true)
    ∧ (defaultEv.eval "sin(1)" none [] true)
        = ⟨.error (.valueErr "Function calls are disabled in decimal mode"), []⟩ := by
  refine ⟨fun ev ans vars f args => rfl,
    fun ev ans vars t h => eval_decimal_call_fails ev ans vars t h, by decide⟩

/-- C7, witness for the contains-a-call hypothesis. -/
theorem claim_C7_witness :
    containsCall (.call (.name "sin") [.constant (.intC 1)]) = true
    ∧ (eval_node defaultEv none [] true
        (.call (.name "sin") [.constant (.intC 1)])).isErr = true :=
  ⟨by decide, claim_C7_decimal_mode_calls.2.1 defaultEv none [] _ (by decide)⟩

/-- C8.  `register(mapping)` merges the mapping into the registry: a name
not in the mapping keeps its previous binding (no removal), a name in the
mapping is bound to the mapping's (last) value, overwriting any existing
binding; after registering `cube`, `evaluate("cube(3)")` is `27`. -/
theorem claim_C8_register_merge :
    (∀ (ev : ExpressionEvaluator) (m : List (String × Val)) (n : String),
        n ∉ m.map Prod.fst →
        lookup (register_names ev m).allowed_names n = lookup ev.allowed_names n)
    ∧ (∀ (ev : ExpressionEvaluator) (m : List (String × Val)) (n : String),
        lookup (register_names ev m).allowed_names n
          = match lookupLast m n with
            | some v => some v
            | none => lookup ev.allowed_names n)
    ∧ ((register_names defaultEv [("cube", .funV .cube)]).eval "cube(3)"
        none [] false).res = .ok (.intV 27) := by
  have hmain : ∀ (ev : ExpressionEvaluator) (m : List (String × Val)) (n : String),
      lookup (register_names ev m).allowed_names n
        = match lookupLast m n with
          | some v => some v
          | none => lookup ev.allowed_names n := by
    intro ev m n
    exact lookup_dictUpdate ev.allowed_names m n
  refine ⟨?_, hmain, by decide⟩
  intro ev m n hn
  rw [hmain]
  rw [lookupLast_none m n hn]

/-- C8, witness for the frame hypothesis. -/
theorem claim_C8_witness :
    ("pi" ∉ [("cube", Val.funV .cube)].map Prod.fst)
    ∧ lookup (register_names defaultEv [("cube", Val.funV .cube)]).allowed_names "pi"
        = lookup defaultEv.allowed_names "pi" :=
  ⟨by decide, claim_C8_register_merge.1 defaultEv [("cube", Val.funV .cube)] "pi"
      (by decide)⟩

/-- C10.  An identifier resolved through the Name Registry (neither the
enabled previous-result token nor a caller-supplied variable) returns the
stored value unchanged: no numeric check (a registered string constant is
returned as the result, unlike variables, which fail when non-numeric) and
no decimal conversion (the float constant `pi` is returned as a float even
in exact-decimal mode). -/
theorem claim_C10_registry_value_unchanged :
    (∀ (reg vars : List (String × Val)) (b : Bool) (ans : Option Val) (d : Bool)
        (nid : String) (v : Val),
        (nid == "ans" && b) = false → lookup vars nid = none →
        lookup reg nid = some v →
        eval_node ⟨b, reg⟩ ans vars d (.name nid) = TR.pure v)
    ∧ (∀ (reg vars : List (String × Val)) (ans : Option Val) (d : Bool)
        (nid : String) (s : String),
        (nid == "ans") = false → lookup vars nid = some (.strV s) →
        eval_node ⟨true, reg⟩ ans vars d (.name nid)
          = TR.fail (.valueErr ("Variable " ++ nid ++ " does not hold a numeric value")))
    ∧ ((register_names defaultEv sample_plugin_names).eval "author"
        none [] false).res = .ok (.strV "plugin-sample")
    ∧ (defaultEv.eval "pi" none [] true).res = .ok (.floatV (.rat piFloat)) := by
  refine ⟨?_, ?_, by decide, by decide⟩
  · intro reg vars b ans d nid v hb hv hr
    simp [eval_node, hb, hv, hr]
  · intro reg vars ans d nid s hb hv
    simp [eval_node, hb, hv, isNumericVal]

/-- C10, witness: the plugin's string constant is returned unchanged even in
exact-decimal mode, while a string-valued variable fails. -/
theorem claim_C10_witness :
    (("author" == "ans" && true) = false)
    ∧ lookup [] "author" = none
    ∧ lookup sample_plugin_names "author" = some (.strV "plugin-sample")
    ∧ eval_node ⟨true, sample_plugin_names⟩ none [] true (.name "author")
        = TR.pure (.strV "plugin-sample")
    ∧ eval_node ⟨true, []⟩ none [("y", .strV "s")] false (.name "y")
        = TR.fail (.valueErr ("Variable " ++ "y" ++ " does not hold a numeric value")) :=
  ⟨by decide, by decide, by decide,
   claim_C10_registry_value_unchanged.1 sample_plugin_names [] true none true
      "author" (.strV "plugin-sample") (by decide) (by decide) (by decide),
   claim_C10_registry_value_unchanged.2.1 [] [("y", .strV "s")] none false
      "y" "s" (by decide) (by decide)⟩

/-- C1.  For every input expression string and every context, nothing
beyond the whitelist is ever executed: every callable invocation recorded
in the trace is a name bound to a callable in `allowed_names`; a `Call`
whose function is not a bare name fails with the typed error before
evaluating the callee or any argument (empty trace); a `Call` on a name
outside the whitelist fails before evaluating any argument; an attribute
node is rejected as an unsupported element; and
`evaluate("__import__('os').system('ls')")` fails with the typed
`ValueError` having invoked nothing. -/
theorem claim_C1_whitelist_only :
    (∀ (ev : ExpressionEvaluator) (s : String) (ans : Option Val)
        (vars : List (String × Val)) (d : Bool),
        ((ev.eval s ans vars d).calls.all
          (fun n => isCallableName ev.allowed_names n)) = true)
    ∧ (∀ (ev : ExpressionEvaluator) (ans : Option Val) (vars : List (String × Val))
        (obj : Node) (fld : String) (args : List Node),
        eval_node ev ans vars false (.call (.attrAccess obj fld) args)
          = TR.fail (.valueErr "Only direct function calls are allowed"))
    ∧ (∀ (ev : ExpressionEvaluator) (ans : Option Val) (vars : List (String × Val))
        (fname : String) (args : List Node),
        lookup ev.allowed_names fname = none →
        eval_node ev ans vars false (.call (.name fname) args)
          = TR.fail (.valueErr ("Function " ++ fname ++ " is not allowed")))
    ∧ (∀ (ev : ExpressionEvaluator) (ans : Option Val) (vars : List (String × Val))
        (d : Bool) (obj : Node) (fld : String),
        eval_node ev ans vars d (.attrAccess obj fld)
          = TR.fail (.valueErr "Unsupported expression element: Attribute"))
    ∧ (defaultEv.eval "__import__('os').system('ls')" none [] false)
        = ⟨.error (.valueErr "Only direct function calls are allowed"), []⟩ := by
  refine ⟨?_, fun ev ans vars obj fld args => rfl, ?_,
    fun ev ans vars d obj fld => rfl, by decide⟩
  · intro ev s ans vars d
    rw [List.all_eq_true]
    intro n hn
    simp only [ExpressionEvaluator.eval] at hn
    cases htok : tokenize ((replaceCaret s.data).length + 1) (replaceCaret s.data) with
    | error u =>
      rw [htok] at hn
      simp [TR.fail] at hn
    | ok ts =>
      rw [htok] at hn
      dsimp only at hn
      cases hp : parseToks ts with
      | ok node =>
        rw [hp] at hn
        exact eval_calls_whitelisted ev ans vars d node n hn
      | error u =>
        rw [hp] at hn
        simp [TR.fail] at hn
  · intro ev ans vars fname args h
    simp [eval_node, h]

/-- C1, witness for the unlisted-name hypothesis. -/
theorem claim_C1_witness :
    lookup defaultEv.allowed_names "__import__" = none
    ∧ eval_node defaultEv none [] false (.call (.name "__import__") [])
        = TR.fail (.valueErr ("Function " ++ "__import__" ++ " is not allowed")) :=
  ⟨by decide, claim_C1_whitelist_only.2.2.1 defaultEv none [] "__import__" [] (by decide)⟩

/-- Shorthand for an integer literal token. -/
def numI (x : ℤ) : Tok := .numTok (.intC x)

/-- C9.  Expressions of numeric literals and `+ - * / % **` (with `^`
canonicalized to `**`) follow standard operator precedence: `*` binds
tighter than `+`; `-` is left-associative; `**` is right-associative, binds
tighter than unary minus (so `-x**n` is `-(x**n)`) while unary minus binds
tighter than `*`; `/ %` sit with `*`; and the values agree with direct
integer arithmetic, with `-3**2 = -9` and `2^3 = 2**3 = 8`. -/
theorem claim_C9_precedence :
    (∀ x y z : ℤ, parseToks [numI x, .plusT, numI y, .starT, numI z]
      = .ok (.binOp .add (.constant (.intC x))
          (.binOp .mult (.constant (.intC y)) (.constant (.intC z)))))
    ∧ (∀ x n : ℤ, parseToks [.minusT, numI x, .dstarT, numI n]
      = .ok (.unaryOp .usub (.binOp .pow (.constant (.intC x)) (.constant (.intC n)))))
    ∧ (∀ x y z : ℤ, parseToks [numI x, .dstarT, numI y, .dstarT, numI z]
      = .ok (.binOp .pow (.constant (.intC x))
          (.binOp .pow (.constant (.intC y)) (.constant (.intC z)))))
    ∧ (∀ x y z : ℤ, parseToks [numI x, .minusT, numI y, .minusT, numI z]
      = .ok (.binOp .sub
          (.binOp .sub (.constant (.intC x)) (.constant (.intC y)))
          (.constant (.intC z))))
    ∧ (∀ x y : ℤ, parseToks [.minusT, numI x, .starT, numI y]
      = .ok (.binOp .mult (.unaryOp .usub (.constant (.intC x)))
          (.constant (.intC y))))
    ∧ (∀ x y z : ℤ, parseToks [numI x, .slashT, numI y, .percentT, numI z]
      = .ok (.binOp .mod
          (.binOp .div (.constant (.intC x)) (.constant (.intC y)))
          (.constant (.intC z))))
    ∧ (∀ x y z : ℤ, evalToks defaultEv [numI x, .plusT, numI y, .starT, numI z]
      = TR.pure (.intV (x + y * z)))
    ∧ (∀ (x : ℤ) (n : ℕ), evalToks defaultEv [.minusT, numI x, .dstarT, numI (n : ℤ)]
      = TR.pure (.intV (-(x ^ n))))
    ∧ (∀ (x : ℤ) (n m : ℕ),
        evalToks defaultEv [numI x, .dstarT, numI (n : ℤ), .dstarT, numI (m : ℤ)]
      = TR.pure (.intV (x ^ n ^ m)))
    ∧ (∀ x y z : ℤ, z ≠ 0 →
        evalToks defaultEv [numI x, .plusT, numI y, .percentT, numI z]
      = TR.pure (.intV (x + Int.fmod y z)))
    ∧ (defaultEv.eval "2^3" none [] false).res = .ok (.intV 8)
    ∧ (defaultEv.eval "2**3" none [] false).res = .ok (.intV 8)
    ∧ (defaultEv.eval "-3**2" none [] false).res = .ok (.intV (-9)) := by
  refine ⟨fun x y z => rfl, fun x n => rfl, fun x y z => rfl, fun x y z => rfl,
    fun x y => rfl, fun x y z => rfl, fun x y z => rfl, ?_, ?_, ?_,
    by decide, by decide, by decide⟩
  · intro x n
    have hp : parseToks [.minusT, numI x, .dstarT, numI (n : ℤ)]
        = .ok (.unaryOp .usub (.binOp .pow (.constant (.intC x))
            (.constant (.intC (n : ℤ))))) := rfl
    simp only [evalToks, hp]
    have h0 : (0 : ℤ) ≤ (n : ℤ) := Int.natCast_nonneg n
    simp [eval_node, TR.bind_eq, TR.bind, TR.pure, TR.ofExcept, to_number, wrapBin,
      binRaw, intOp, pyIntPow, unaryRaw, h0, ipowN_eq]
  · intro x n m
    have hp : parseToks [numI x, .dstarT, numI (n : ℤ), .dstarT, numI (m : ℤ)]
        = .ok (.binOp .pow (.constant (.intC x))
            (.binOp .pow (.constant (.intC (n : ℤ))) (.constant (.intC (m : ℤ))))) := rfl
    simp only [evalToks, hp]
    have h0 : (0 : ℤ) ≤ (n : ℤ) := Int.natCast_nonneg n
    have h1 : (0 : ℤ) ≤ (m : ℤ) := Int.natCast_nonneg m
    have h2 : (0 : ℤ) ≤ ((n : ℤ) ^ m) := pow_nonneg h0 m
    simp [eval_node, TR.bind_eq, TR.bind, TR.pure, TR.ofExcept, to_number, wrapBin,
      binRaw, intOp, pyIntPow, h0, h1, h2, ipowN_eq]
    rw [show ((n : ℤ) ^ m) = ((n ^ m : ℕ) : ℤ) by push_cast; ring, Int.toNat_natCast]
  · intro x y z hz
    have hp : parseToks [numI x, .plusT, numI y, .percentT, numI z]
        = .ok (.binOp .add (.constant (.intC x))
            (.binOp .mod (.constant (.intC y)) (.constant (.intC z)))) := rfl
    simp only [evalToks, hp]
    simp [eval_node, TR.bind_eq, TR.bind, TR.pure, TR.ofExcept, to_number, wrapBin,
      binRaw, intOp, hz]

/-- C9, witness for the nonzero-modulus hypothesis. -/
theorem claim_C9_witness :
    ((3 : ℤ) ≠ 0)
    ∧ evalToks defaultEv [numI 10, .plusT, numI 7, .percentT, numI 3]
        = TR.pure (.intV (10 + Int.fmod 7 3)) :=
  ⟨by decide, claim_C9_precedence.2.2.2.2.2.2.2.2.2.1 10 7 3 (by decide)⟩
